import Mathlib

/-!
Verification of the call-rate limiter (debounce / throttle wrappers) of this
repository, shallowly embedded from
`src/04-JS Design Pattern/06-Throttling/main.js` (`throttle`, `simpleThrottle`)
and `src/04-JS Design Pattern/05-Deboncing/main.js` (`debounce`).

Modelling conventions:
* Timestamps are `Nat` milliseconds.  `Date.now()` in a browser is a large
  positive number, never `0`; scenarios given in the spec with relative times
  t = 0, 30, ... are therefore modelled at absolute times `t0 + 0, t0 + 30, ...`
  for a clock epoch `t0` (the throttle code uses `lastCall = 0` as its
  "never fired" sentinel, so a literal clock value 0 would collide with it).
* A call's arguments together with its `this` context are modelled as one
  opaque value of a type parameter `α`.
* The JS `timeoutId` closure variable is `timeoutVar : Option Nat` (`none`
  models both `undefined` and `null`; `some id` a truthy timer id — browser
  timer ids are positive integers, hence always truthy).
* The browser's timer queue for one wrapper is modelled explicitly as the
  list `pending` (so "at most one native timer pending" is a provable fact,
  not a typing artifact).  `setTimeout` appends a timer with a fresh id and
  `clearTimeout id` removes it.  A timer callback runs at its scheduled time
  (the event loop is assumed free, which is the idealisation the spec's
  "t≈" wording makes).
* `arms` / `cleared` are ghost instrumentation counters, not program state:
  `arms` counts `setTimeout` calls, `cleared` counts removals of a live timer
  from the queue (by firing or by a `clearTimeout` that found its target).
  They let the arm/clear accounting of the spec's timer-ownership invariant
  be stated; no program branch reads them.
* Executions of the wrapped callable are reported as a list of
  `(time, argument)` pairs in chronological order; the callable itself is
  total here (throwing callables are treated separately, by the
  `...ApplyState` definitions that capture the wrapper state at the exact
  program point where `func.apply` runs).
-/

namespace RateLimiter

/-- One native timer scheduled with `setTimeout`: its id, its absolute fire
time, and the arguments/context the scheduled closure captured. -/
structure Timer (α : Type) where
  id : Nat
  fireTime : Nat
  args : α
  deriving Repr, DecidableEq

/-- The mutable closure state of one wrapper (`lastCall`/`lastCallTime`,
`timeoutId`, `callCount`), together with the wrapper's slice of the browser
timer queue (`pending`, `nextId`) and the two ghost accounting counters. -/
structure WrapState (α : Type) where
  lastCall : Nat
  timeoutVar : Option Nat
  callCount : Nat
  pending : List (Timer α)
  nextId : Nat
  arms : Nat
  cleared : Nat
  deriving Repr, DecidableEq

/-- Fresh wrapper state: `lastCall = 0` (throttle's sentinel; debounce's
`lastCallTime` starts undefined and is write-only, modelled as 0),
`timeoutId` unset, no calls yet, empty timer queue.  Timer ids start at 1
(browser ids are positive, hence truthy). -/
def initState (α : Type) : WrapState α :=
  { lastCall := 0, timeoutVar := none, callCount := 0, pending := [],
    nextId := 1, arms := 0, cleared := 0 }

/-- `clearTimeout(id)`: remove the timer with this id from the queue (a no-op
when no such timer is live).  Ghost: `cleared` increments only when a live
timer was actually removed. -/
def clearLive (id : Nat) (s : WrapState α) : WrapState α :=
  { s with
    pending := s.pending.filter (fun tm => tm.id ≠ id)
    cleared := s.cleared + (if s.pending.any (fun tm => tm.id = id) then 1 else 0) }

/-- `if (timeoutId) { clearTimeout(timeoutId); timeoutId = null; }` -/
def clearIfVar (s : WrapState α) : WrapState α :=
  match s.timeoutVar with
  | some id => { clearLive id s with timeoutVar := none }
  | none => s

/-- `timeoutId = setTimeout(callback, ...)` firing at absolute time
`fireTime`, with the callback capturing `a`: append a fresh timer and store
its id in the variable.  Ghost: `arms` increments. -/
def armTimer (fireTime : Nat) (a : α) (s : WrapState α) : WrapState α :=
  { s with
    pending := s.pending ++ [⟨s.nextId, fireTime, a⟩]
    timeoutVar := some s.nextId
    nextId := s.nextId + 1
    arms := s.arms + 1 }

/-- `const remaining = delay - (now - lastCall)` — JS numbers are signed, so
the subtraction is in `Int`. -/
def remainingOf (delay lastCall now : Nat) : Int :=
  (delay : Int) - ((now : Int) - (lastCall : Int))

/-! ## Throttle (`06-Throttling/main.js`, lines 9–67) -/

/-- Body of `throttledFunction` (lines 15–43): bump `callCount`; suppress the
leading fire of window 1 when `leading = false` by pretending the last call
was now; if the window has elapsed (or `remaining > delay`, the
clock-went-backward / sentinel guard), clear any pending timer and fire
immediately with this call's arguments; else if no timer is pending and
`trailing` is set, arm a timer for the remaining time capturing this call's
arguments; else do nothing. -/
def throttleInvoke (delay : Nat) (leading trailing : Bool) (now : Nat) (a : α)
    (s : WrapState α) : WrapState α × List (Nat × α) :=
  let s := { s with callCount := s.callCount + 1 }
  let s := if s.lastCall = 0 ∧ leading = false then { s with lastCall := now } else s
  let remaining := remainingOf delay s.lastCall now
  if remaining ≤ 0 ∨ remaining > (delay : Int) then
    let s := clearIfVar s
    ({ s with lastCall := now }, [(now, a)])
  else if s.timeoutVar = none ∧ trailing = true then
    (armTimer (now + remaining.toNat) a s, [])
  else
    (s, [])

/-- The `setTimeout` callback armed by `throttleInvoke` (lines 36–40), run
when timer `tm` fires: the timer leaves the queue by firing (ghost `cleared`
increments); the callback sets `lastCall` to 0 when `leading === false`, else
to `Date.now()` (= the fire time), nulls `timeoutId`, then executes the
captured call. -/
def throttleTimerFire (leading : Bool) (tm : Timer α) (s : WrapState α) :
    WrapState α × List (Nat × α) :=
  let s := { s with
    pending := s.pending.filter (fun t => t.id ≠ tm.id)
    cleared := s.cleared + 1 }
  let s := { s with
    lastCall := if leading = false then 0 else tm.fireTime
    timeoutVar := none }
  (s, [(tm.fireTime, tm.args)])

/-- `throttledFunction.cancel` (lines 46–52): clear the pending timer if any,
then unconditionally reset `lastCall` to the 0 sentinel. -/
def throttleCancel (s : WrapState α) : WrapState α :=
  let s := clearIfVar s
  { s with lastCall := 0 }

/-- `throttledFunction.flush` (lines 54–61): if a timer id is stored, clear
it, set `lastCall = Date.now()`, null the variable, and execute the callable
with `flush`'s own `this`/`arguments` (not the captured trailing call). -/
def throttleFlush (now : Nat) (a : α) (s : WrapState α) :
    WrapState α × List (Nat × α) :=
  match s.timeoutVar with
  | some id =>
    let s := clearLive id s
    let s := { s with lastCall := now, timeoutVar := none }
    (s, [(now, a)])
  | none => (s, [])

/-! ## Debounce (`05-Deboncing/main.js`, lines 9–54) -/

/-- Body of `debouncedFunction` (lines 14–34): bump `callCount`, record
`lastCallTime = Date.now()`; `clearTimeout(timeoutId)` (which does **not**
change the variable); fire immediately with this call's arguments when
`immediate` is set and the variable was unset; finally arm a fresh timer for
`delay` capturing this call's arguments and store its id. -/
def debounceInvoke (delay : Nat) (immediate : Bool) (now : Nat) (a : α)
    (s : WrapState α) : WrapState α × List (Nat × α) :=
  let s := { s with callCount := s.callCount + 1, lastCall := now }
  let hadTimer := s.timeoutVar
  let s := match s.timeoutVar with
    | some id => clearLive id s
    | none => s
  let fires := if immediate = true ∧ hadTimer = none then [(now, a)] else []
  (armTimer (now + delay) a s, fires)

/-- The `setTimeout` callback armed by `debounceInvoke` (lines 28–33), run
when timer `tm` fires: execute the captured call only when `immediate` is
false, then null `timeoutId`.  (Note the source order: `func.apply` runs
*before* `timeoutId = null` — see the `ApplyState` definitions below.) -/
def debounceTimerFire (immediate : Bool) (tm : Timer α) (s : WrapState α) :
    WrapState α × List (Nat × α) :=
  let s := { s with
    pending := s.pending.filter (fun t => t.id ≠ tm.id)
    cleared := s.cleared + 1 }
  let fires := if immediate = false then [(tm.fireTime, tm.args)] else []
  ({ s with timeoutVar := none }, fires)

/-- `debouncedFunction.cancel` (lines 37–40): `clearTimeout(timeoutId)` and
null the variable. -/
def debounceCancel (s : WrapState α) : WrapState α :=
  let s := match s.timeoutVar with
    | some id => clearLive id s
    | none => s
  { s with timeoutVar := none }

/-- `debouncedFunction.flush` (lines 42–48): if a timer id is stored, clear
it, execute the callable with `flush`'s own `this`/`arguments`, and null the
variable. -/
def debounceFlush (now : Nat) (a : α) (s : WrapState α) :
    WrapState α × List (Nat × α) :=
  match s.timeoutVar with
  | some id => ({ clearLive id s with timeoutVar := none }, [(now, a)])
  | none => (s, [])

/-! ## The event loop driver -/

/-- One wrapper policy, packaging its four operations (the timer-fire entry
is the `setTimeout` callback the policy arms). -/
structure Policy (α : Type) where
  invoke : Nat → α → WrapState α → WrapState α × List (Nat × α)
  cancel : WrapState α → WrapState α
  flush : Nat → α → WrapState α → WrapState α × List (Nat × α)
  fire : Timer α → WrapState α → WrapState α × List (Nat × α)

/-- `throttle(func, delay, { leading, trailing })` as a policy. -/
def throttlePolicy (delay : Nat) (leading trailing : Bool) : Policy α :=
  { invoke := throttleInvoke delay leading trailing
    cancel := throttleCancel
    flush := throttleFlush
    fire := throttleTimerFire leading }

/-- `debounce(func, delay, immediate)` as a policy. -/
def debouncePolicy (delay : Nat) (immediate : Bool) : Policy α :=
  { invoke := debounceInvoke delay immediate
    cancel := debounceCancel
    flush := debounceFlush
    fire := debounceTimerFire immediate }

/-- An external stimulus to the wrapper at an absolute time: a call of the
wrapped function, or of its `cancel` / `flush` methods (`flush` carries the
arguments the flush call itself receives). -/
inductive Event (α : Type) where
  | invoke (t : Nat) (a : α)
  | cancel (t : Nat)
  | flush (t : Nat) (a : α)
  deriving Repr, DecidableEq

/-- The time at which an event occurs. -/
def Event.time : Event α → Nat
  | .invoke t _ => t
  | .cancel t => t
  | .flush t _ => t

/-- The earliest-firing timer of a queue (the one the browser runs first). -/
def earliest : List (Timer α) → Option (Timer α)
  | [] => none
  | tm :: rest =>
    match earliest rest with
    | none => some tm
    | some best => if best.fireTime < tm.fireTime then some best else some tm

/-- Run every timer whose scheduled time is ≤ `t`, earliest first (fuelled by
the queue length; callbacks of these policies never arm new timers). -/
def fireDueAux (fire : Timer α → WrapState α → WrapState α × List (Nat × α))
    (t : Nat) : Nat → WrapState α → WrapState α × List (Nat × α)
  | 0, s => (s, [])
  | n + 1, s =>
    match earliest (s.pending.filter (fun tm => tm.fireTime ≤ t)) with
    | none => (s, [])
    | some tm =>
      let r1 := fire tm s
      let r2 := fireDueAux fire t n r1.1
      (r2.1, r1.2 ++ r2.2)

/-- Fire all timers due at or before time `t`. -/
def fireDue (fire : Timer α → WrapState α → WrapState α × List (Nat × α))
    (t : Nat) (s : WrapState α) : WrapState α × List (Nat × α) :=
  fireDueAux fire t s.pending.length s

/-- Process one external event: first run every timer due by the event's
time, then perform the event itself. -/
def stepEvent (P : Policy α) (e : Event α) (s : WrapState α) :
    WrapState α × List (Nat × α) :=
  let r1 := fireDue P.fire e.time s
  let r2 := match e with
    | .invoke t a => P.invoke t a r1.1
    | .cancel _ => (P.cancel r1.1, [])
    | .flush t a => P.flush t a r1.1
  (r2.1, r1.2 ++ r2.2)

/-- Process a list of external events in order, collecting every execution of
the wrapped callable. -/
def runEvents (P : Policy α) : List (Event α) → WrapState α →
    WrapState α × List (Nat × α)
  | [], s => (s, [])
  | e :: evs, s =>
    let r1 := stepEvent P e s
    let r2 := runEvents P evs r1.1
    (r2.1, r1.2 ++ r2.2)

/-- Run the remaining timers to completion, earliest first (fuelled). -/
def fireAllAux (fire : Timer α → WrapState α → WrapState α × List (Nat × α)) :
    Nat → WrapState α → WrapState α × List (Nat × α)
  | 0, s => (s, [])
  | n + 1, s =>
    match earliest s.pending with
    | none => (s, [])
    | some tm =>
      let r1 := fire tm s
      let r2 := fireAllAux fire n r1.1
      (r2.1, r1.2 ++ r2.2)

/-- Fire every timer still pending. -/
def fireAll (fire : Timer α → WrapState α → WrapState α × List (Nat × α))
    (s : WrapState α) : WrapState α × List (Nat × α) :=
  fireAllAux fire s.pending.length s

/-- All executions of the wrapped callable produced by an event sequence when
the event loop then runs to quiescence (every armed timer eventually fires). -/
def runToQuiescence (P : Policy α) (evs : List (Event α)) : List (Nat × α) :=
  let r1 := runEvents P evs (initState α)
  let r2 := fireAll P.fire r1.1
  r1.2 ++ r2.2

/-! ## `simpleThrottle` (`06-Throttling/main.js`, lines 71–80) -/

/-- The whole closure state of `simpleThrottle`: just `lastCall`. -/
structure SimpleState where
  lastCall : Nat
  deriving Repr, DecidableEq

/-- Body of the function returned by `simpleThrottle` (lines 73–79): fire and
record `lastCall = now` exactly when `now - lastCall >= delay` (signed JS
arithmetic, hence `Int`). -/
def simpleThrottleInvoke (delay : Nat) (now : Nat) (a : α) (s : SimpleState) :
    SimpleState × List (Nat × α) :=
  if (delay : Int) ≤ (now : Int) - (s.lastCall : Int) then
    ({ lastCall := now }, [(now, a)])
  else
    (s, [])

/-- Run `simpleThrottle`'s wrapper over a list of timestamped calls. -/
def simpleThrottleRun (delay : Nat) : List (Nat × α) → SimpleState →
    SimpleState × List (Nat × α)
  | [], s => (s, [])
  | (t, a) :: cs, s =>
    let r1 := simpleThrottleInvoke delay t a s
    let r2 := simpleThrottleRun delay cs r1.1
    (r2.1, r1.2 ++ r2.2)

/-! ## Wrapper state at the `func.apply` program points

For the error-handling analysis the exact wrapper state *at the moment the
wrapped callable is entered* matters: a callable that throws propagates its
exception out of the surrounding function or timer callback, so the
statements after `func.apply` do not run and the state at the apply point is
what the wrapper is left with.  Each definition below replays the statements
of one fire path up to (excluding) its `func.apply`. -/

/-- Throttle, immediate-fire branch of `throttledFunction` (lines 16–33):
`callCount++`, the `leading=false` first-call adjustment, then inside the
fire branch `clearTimeout`/`timeoutId = null` and `lastCall = now` all
precede `func.apply(context, args)`. -/
def throttleInvokeApplyState (leading : Bool) (now : Nat) (s : WrapState α) :
    WrapState α :=
  let s := { s with callCount := s.callCount + 1 }
  let s := if s.lastCall = 0 ∧ leading = false then { s with lastCall := now } else s
  { clearIfVar s with lastCall := now }

/-- Throttle, deferred-fire timer callback (lines 36–40): the timer has left
the queue by firing, and `lastCall = ...; timeoutId = null;` both precede
`func.apply(context, args)`. -/
def throttleTimerFireApplyState (leading : Bool) (tm : Timer α) (s : WrapState α) :
    WrapState α :=
  let s := { s with
    pending := s.pending.filter (fun t => t.id ≠ tm.id)
    cleared := s.cleared + 1 }
  { s with
    lastCall := if leading = false then 0 else tm.fireTime
    timeoutVar := none }

/-- Throttle `flush` (lines 54–61), entered with `timeoutId = some id`:
`clearTimeout(timeoutId); lastCall = Date.now(); timeoutId = null;` all
precede `func.apply(this, arguments)`. -/
def throttleFlushApplyState (now : Nat) (id : Nat) (s : WrapState α) :
    WrapState α :=
  { clearLive id s with lastCall := now, timeoutVar := none }

/-- Debounce, immediate-fire branch of `debouncedFunction` (lines 16–25):
`callCount++`, `lastCallTime = Date.now()`, `clearTimeout(timeoutId)` (which
does not modify the variable) precede `func.apply(context, args)`; the fire
is guarded by `immediate && !timeoutId`. -/
def debounceImmediateApplyState (now : Nat) (s : WrapState α) : WrapState α :=
  let s := { s with callCount := s.callCount + 1, lastCall := now }
  match s.timeoutVar with
  | some id => clearLive id s
  | none => s

/-- Debounce, deferred-fire timer callback (lines 28–33): the timer has left
the queue by firing, and `func.apply(context, args)` is the *first* statement
of the callback — `timeoutId = null` only runs after it, so the variable
still holds the fired timer's id at the apply point. -/
def debounceTimerFireApplyState (tm : Timer α) (s : WrapState α) : WrapState α :=
  { s with
    pending := s.pending.filter (fun t => t.id ≠ tm.id)
    cleared := s.cleared + 1 }

/-- Debounce `flush` (lines 42–48), entered with `timeoutId = some id`:
`clearTimeout(timeoutId)` precedes `func.apply(this, arguments)`, but
`timeoutId = null` only runs after it. -/
def debounceFlushApplyState (id : Nat) (s : WrapState α) : WrapState α :=
  clearLive id s

/-! ## Basic lemmas about the driver -/

theorem clearLive_timeoutVar (id : Nat) (s : WrapState α) :
    (clearLive id s).timeoutVar = s.timeoutVar := rfl

theorem clearIfVar_timeoutVar (s : WrapState α) :
    (clearIfVar s).timeoutVar = none := by
  unfold clearIfVar
  rcases hv : s.timeoutVar with _ | id
  · exact hv
  · rfl

theorem fireDue_of_pending_nil
    (fire : Timer α → WrapState α → WrapState α × List (Nat × α))
    (t : Nat) (s : WrapState α) (h : s.pending = []) :
    fireDue fire t s = (s, []) := by
  unfold fireDue
  rw [h]
  rfl

theorem fireDue_of_not_due
    (fire : Timer α → WrapState α → WrapState α × List (Nat × α))
    (t : Nat) (s : WrapState α) (tm : Timer α)
    (h : s.pending = [tm]) (hdue : ¬ tm.fireTime ≤ t) :
    fireDue fire t s = (s, []) := by
  unfold fireDue fireDueAux
  simp [h, earliest, hdue]

theorem fireDue_of_due
    (fire : Timer α → WrapState α → WrapState α × List (Nat × α))
    (t : Nat) (s : WrapState α) (tm : Timer α)
    (h : s.pending = [tm]) (hdue : tm.fireTime ≤ t) :
    fireDue fire t s = fire tm s := by
  unfold fireDue fireDueAux
  simp [h, earliest, hdue, fireDueAux]

theorem fireAll_of_pending_nil
    (fire : Timer α → WrapState α → WrapState α × List (Nat × α))
    (s : WrapState α) (h : s.pending = []) :
    fireAll fire s = (s, []) := by
  unfold fireAll
  rw [h]
  rfl

theorem fireAll_of_pending_one
    (fire : Timer α → WrapState α → WrapState α × List (Nat × α))
    (s : WrapState α) (tm : Timer α) (h : s.pending = [tm]) :
    fireAll fire s = fire tm s := by
  unfold fireAll fireAllAux
  simp [h, earliest, fireAllAux]

/-! ## Characterisations of the policy steps -/

theorem thInvoke_fire {α : Type} (delay : Nat) (leading trailing : Bool)
    (now : Nat) (a : α) (s : WrapState α)
    (hv : s.timeoutVar = none)
    (hsent : ¬ (s.lastCall = 0 ∧ leading = false))
    (hcond : remainingOf delay s.lastCall now ≤ 0 ∨
      remainingOf delay s.lastCall now > (delay : Int)) :
    throttleInvoke delay leading trailing now a s =
      ({ s with callCount := s.callCount + 1, lastCall := now }, [(now, a)]) := by
  obtain ⟨lc, tv, cc, pd, ni, ar, cl⟩ := s
  simp only [WrapState.timeoutVar] at hv
  simp only [WrapState.lastCall] at hsent hcond
  subst hv
  simp [throttleInvoke, clearIfVar, hsent, hcond]

theorem thInvoke_arm {α : Type} (delay : Nat) (leading : Bool)
    (now : Nat) (a : α) (s : WrapState α)
    (hv : s.timeoutVar = none)
    (hsent : ¬ (s.lastCall = 0 ∧ leading = false))
    (h1 : 0 < remainingOf delay s.lastCall now)
    (h2 : remainingOf delay s.lastCall now ≤ (delay : Int)) :
    throttleInvoke delay leading true now a s =
      (armTimer (now + (remainingOf delay s.lastCall now).toNat) a
        { s with callCount := s.callCount + 1 }, []) := by
  obtain ⟨lc, tv, cc, pd, ni, ar, cl⟩ := s
  simp only [WrapState.timeoutVar] at hv
  simp only [WrapState.lastCall] at hsent h1 h2
  subst hv
  have hcond : ¬ (remainingOf delay lc now ≤ 0 ∨
      remainingOf delay lc now > (delay : Int)) := by
    simp only [remainingOf] at h1 h2 ⊢
    omega
  simp [throttleInvoke, hsent, hcond]

theorem thInvoke_skip {α : Type} (delay : Nat) (leading trailing : Bool)
    (now : Nat) (a : α) (id : Nat) (s : WrapState α)
    (hv : s.timeoutVar = some id)
    (hsent : ¬ (s.lastCall = 0 ∧ leading = false))
    (h1 : 0 < remainingOf delay s.lastCall now)
    (h2 : remainingOf delay s.lastCall now ≤ (delay : Int)) :
    throttleInvoke delay leading trailing now a s =
      ({ s with callCount := s.callCount + 1 }, []) := by
  obtain ⟨lc, tv, cc, pd, ni, ar, cl⟩ := s
  simp only [WrapState.timeoutVar] at hv
  simp only [WrapState.lastCall] at hsent h1 h2
  subst hv
  have hcond : ¬ (remainingOf delay lc now ≤ 0 ∨
      remainingOf delay lc now > (delay : Int)) := by
    simp only [remainingOf] at h1 h2 ⊢
    omega
  simp [throttleInvoke, hsent, hcond]

theorem dbInvoke_of_idle {α : Type} (delay : Nat) (immediate : Bool)
    (now : Nat) (a : α) (s : WrapState α)
    (hp : s.pending = []) (hv : s.timeoutVar = none) :
    debounceInvoke delay immediate now a s =
      (⟨now, some s.nextId, s.callCount + 1, [⟨s.nextId, now + delay, a⟩],
        s.nextId + 1, s.arms + 1, s.cleared⟩,
       if immediate = true then [(now, a)] else []) := by
  obtain ⟨lc, tv, cc, pd, ni, ar, cl⟩ := s
  simp only [WrapState.timeoutVar] at hv
  simp only [WrapState.pending] at hp
  subst hv hp
  cases immediate <;> simp [debounceInvoke, armTimer]

theorem dbInvoke_of_armed {α : Type} (delay : Nat) (immediate : Bool)
    (now : Nat) (a : α) (tmid ft : Nat) (ap : α) (s : WrapState α)
    (hp : s.pending = [⟨tmid, ft, ap⟩]) (hv : s.timeoutVar = some tmid) :
    debounceInvoke delay immediate now a s =
      (⟨now, some s.nextId, s.callCount + 1, [⟨s.nextId, now + delay, a⟩],
        s.nextId + 1, s.arms + 1, s.cleared + 1⟩, []) := by
  obtain ⟨lc, tv, cc, pd, ni, ar, cl⟩ := s
  simp only [WrapState.timeoutVar] at hv
  simp only [WrapState.pending] at hp
  subst hv hp
  cases immediate <;> simp [debounceInvoke, armTimer, clearLive, List.filter, List.any]

/-! ## Composition lemmas for the driver -/

theorem runEvents_cons (P : Policy α) (e : Event α) (evs : List (Event α))
    (s : WrapState α) :
    runEvents P (e :: evs) s =
      ((runEvents P evs (stepEvent P e s).1).1,
       (stepEvent P e s).2 ++ (runEvents P evs (stepEvent P e s).1).2) := rfl

theorem stepEvent_invoke_of_pending_nil (P : Policy α) (t : Nat) (a : α)
    (s : WrapState α) (h : s.pending = []) :
    stepEvent P (Event.invoke t a) s = P.invoke t a s := by
  unfold stepEvent
  rw [fireDue_of_pending_nil P.fire (Event.invoke t a).time s h]
  simp

theorem stepEvent_invoke_of_not_due (P : Policy α) (t : Nat) (a : α)
    (s : WrapState α) (tm : Timer α)
    (hp : s.pending = [tm]) (hdue : ¬ tm.fireTime ≤ t) :
    stepEvent P (Event.invoke t a) s = P.invoke t a s := by
  unfold stepEvent
  rw [fireDue_of_not_due P.fire (Event.invoke t a).time s tm hp hdue]
  simp

theorem stepEvent_invoke_of_due (P : Policy α) (t : Nat) (a : α)
    (s : WrapState α) (tm : Timer α)
    (hp : s.pending = [tm]) (hdue : tm.fireTime ≤ t) :
    stepEvent P (Event.invoke t a) s =
      ((P.invoke t a (P.fire tm s).1).1,
       (P.fire tm s).2 ++ (P.invoke t a (P.fire tm s).1).2) := by
  unfold stepEvent
  rw [fireDue_of_due P.fire (Event.invoke t a).time s tm hp hdue]

theorem throttlePolicy_invoke (delay : Nat) (l tr : Bool) :
    (throttlePolicy (α := α) delay l tr).invoke = throttleInvoke delay l tr := rfl

theorem throttlePolicy_fire (delay : Nat) (l tr : Bool) :
    (throttlePolicy (α := α) delay l tr).fire = throttleTimerFire l := rfl

theorem debouncePolicy_invoke (delay : Nat) (im : Bool) :
    (debouncePolicy (α := α) delay im).invoke = debounceInvoke delay im := rfl

theorem debouncePolicy_fire (delay : Nat) (im : Bool) :
    (debouncePolicy (α := α) delay im).fire = debounceTimerFire im := rfl

theorem runToQuiescence_eq (P : Policy α) (evs : List (Event α)) :
    runToQuiescence P evs =
      (runEvents P evs (initState α)).2 ++
        (fireAll P.fire (runEvents P evs (initState α)).1).2 := rfl

theorem chain_le_and_span_to_gap {α : Type} (delay : Nat) :
    ∀ (rest : List (Nat × α)) (t1 : Nat) (a1 : α),
      List.Chain (fun p q : Nat × α => p.1 ≤ q.1) (t1, a1) rest →
      (∀ c ∈ rest, c.1 < t1 + delay) →
      List.Chain (fun p q : Nat × α => p.1 ≤ q.1 ∧ q.1 < p.1 + delay) (t1, a1) rest := by
  intro rest
  induction rest with
  | nil => intro t1 a1 _ _; exact List.Chain.nil
  | cons c cs ih =>
    intro t1 a1 hch hspan
    obtain ⟨t2, a2⟩ := c
    rcases List.chain_cons.mp hch with ⟨hle, hch2⟩
    refine List.chain_cons.mpr ⟨⟨hle, hspan (t2, a2) (by simp)⟩, ih t2 a2 hch2 ?_⟩
    intro d hd
    have h1 := hspan d (by simp [hd])
    have h2 : t1 ≤ t2 := hle
    omega

theorem debounce_burst_aux {α : Type} (delay : Nat) (immediate : Bool)
    (cs : List (Nat × α)) :
    ∀ (tp tmid : Nat) (ap : α) (s : WrapState α),
      s.pending = [⟨tmid, tp + delay, ap⟩] →
      s.timeoutVar = some tmid →
      List.Chain (fun p q : Nat × α => p.1 ≤ q.1 ∧ q.1 < p.1 + delay) (tp, ap) cs →
      (runEvents (debouncePolicy delay immediate)
          (cs.map (fun c => Event.invoke c.1 c.2)) s).2 ++
        (fireAll (debouncePolicy (α := α) delay immediate).fire
          (runEvents (debouncePolicy delay immediate)
            (cs.map (fun c => Event.invoke c.1 c.2)) s).1).2 =
      (if immediate = true then []
       else [((cs.getLastD (tp, ap)).1 + delay, (cs.getLastD (tp, ap)).2)]) := by
  induction cs with
  | nil =>
    intro tp tmid ap s hp hv _
    simp only [List.map_nil, runEvents]
    rw [fireAll_of_pending_one _ s ⟨tmid, tp + delay, ap⟩ hp]
    cases immediate <;>
      simp [debouncePolicy_fire, debounceTimerFire, List.getLastD]
  | cons c cs ih =>
    intro tp tmid ap s hp hv hchain
    obtain ⟨t, a⟩ := c
    rcases List.chain_cons.mp hchain with ⟨⟨hle, hlt⟩, hchain2⟩
    rw [List.map_cons, runEvents_cons,
      stepEvent_invoke_of_not_due _ t a s ⟨tmid, tp + delay, ap⟩ hp
        (by show ¬ tp + delay ≤ t; omega)]
    simp only [debouncePolicy_invoke]
    rw [dbInvoke_of_armed delay immediate t a tmid (tp + delay) ap s hp hv]
    have := ih t s.nextId a
      ⟨t, some s.nextId, s.callCount + 1, [⟨s.nextId, t + delay, a⟩],
        s.nextId + 1, s.arms + 1, s.cleared + 1⟩ rfl rfl hchain2
    have heq : (((t, a) :: cs).getLastD (tp, ap)) = cs.getLastD (t, a) :=
      List.getLastD_cons _ _ _
    rw [heq]
    simpa using this


/-- The number of `invoke` events in a stimulus list (what the spec's K
counts: `invoke` attempts, not executions). -/
def countInvokes : List (Event α) → Nat
  | [] => 0
  | Event.invoke _ _ :: evs => countInvokes evs + 1
  | Event.cancel _ :: evs => countInvokes evs
  | Event.flush _ _ :: evs => countInvokes evs

theorem countInvokes_append (evs more : List (Event α)) :
    countInvokes (evs ++ more) = countInvokes evs + countInvokes more := by
  induction evs with
  | nil => simp [countInvokes]
  | cons e evs ih =>
    cases e <;> simp [countInvokes, ih] <;> omega

theorem fireDueAux_callCount
    (fire : Timer α → WrapState α → WrapState α × List (Nat × α))
    (hfire : ∀ tm s, ((fire tm s).1).callCount = s.callCount) (t : Nat) :
    ∀ (n : Nat) (s : WrapState α),
      ((fireDueAux fire t n s).1).callCount = s.callCount := by
  intro n
  induction n with
  | zero => intro s; rfl
  | succ n ih =>
    intro s
    unfold fireDueAux
    rcases h : earliest (s.pending.filter (fun tm => tm.fireTime ≤ t)) with _ | tm
    · simp only [h]
    · simp only [h]
      exact (ih _).trans (hfire tm s)

theorem throttleInvoke_callCount (delay : Nat) (l tr : Bool) (t : Nat) (a : α)
    (s : WrapState α) :
    ((throttleInvoke delay l tr t a s).1).callCount = s.callCount + 1 := by
  obtain ⟨lc, tv, cc, pd, ni, ar, cl⟩ := s
  rcases tv with _ | id <;>
    · simp only [throttleInvoke]
      split_ifs <;> simp [clearIfVar, clearLive, armTimer]

theorem debounceInvoke_callCount (delay : Nat) (im : Bool) (t : Nat) (a : α)
    (s : WrapState α) :
    ((debounceInvoke delay im t a s).1).callCount = s.callCount + 1 := by
  obtain ⟨lc, tv, cc, pd, ni, ar, cl⟩ := s
  rcases tv with _ | id <;>
    · simp only [debounceInvoke]
      simp [clearLive, armTimer]

theorem throttleCancel_callCount (s : WrapState α) :
    (throttleCancel s).callCount = s.callCount := by
  obtain ⟨lc, tv, cc, pd, ni, ar, cl⟩ := s
  rcases tv with _ | id <;> rfl

theorem debounceCancel_callCount (s : WrapState α) :
    (debounceCancel s).callCount = s.callCount := by
  obtain ⟨lc, tv, cc, pd, ni, ar, cl⟩ := s
  rcases tv with _ | id <;> rfl

theorem throttleFlush_callCount (t : Nat) (a : α) (s : WrapState α) :
    ((throttleFlush t a s).1).callCount = s.callCount := by
  obtain ⟨lc, tv, cc, pd, ni, ar, cl⟩ := s
  rcases tv with _ | id <;> rfl

theorem debounceFlush_callCount (t : Nat) (a : α) (s : WrapState α) :
    ((debounceFlush t a s).1).callCount = s.callCount := by
  obtain ⟨lc, tv, cc, pd, ni, ar, cl⟩ := s
  rcases tv with _ | id <;> rfl

theorem fireDue_callCount
    (fire : Timer α → WrapState α → WrapState α × List (Nat × α))
    (hfire : ∀ tm s, ((fire tm s).1).callCount = s.callCount) (t : Nat)
    (s : WrapState α) : ((fireDue fire t s).1).callCount = s.callCount :=
  fireDueAux_callCount fire hfire t s.pending.length s

theorem stepEvent_callCount_throttle (d : Nat) (l tr : Bool) (e : Event α)
    (s : WrapState α) :
    ((stepEvent (throttlePolicy d l tr) e s).1).callCount
      = s.callCount + countInvokes [e] := by
  cases e with
  | invoke t a =>
    simp only [stepEvent, countInvokes, throttlePolicy_invoke]
    rw [throttleInvoke_callCount, fireDue_callCount _ (fun tm s => rfl)]
  | cancel t =>
    simp only [stepEvent, countInvokes]
    rw [show (throttlePolicy (α := α) d l tr).cancel = throttleCancel from rfl]
    rw [throttleCancel_callCount, fireDue_callCount _ (fun tm s => rfl)]
    omega
  | flush t a =>
    simp only [stepEvent, countInvokes]
    rw [show (throttlePolicy (α := α) d l tr).flush = throttleFlush from rfl]
    rw [throttleFlush_callCount, fireDue_callCount _ (fun tm s => rfl)]
    omega

theorem stepEvent_callCount_debounce (d : Nat) (im : Bool) (e : Event α)
    (s : WrapState α) :
    ((stepEvent (debouncePolicy d im) e s).1).callCount
      = s.callCount + countInvokes [e] := by
  cases e with
  | invoke t a =>
    simp only [stepEvent, countInvokes, debouncePolicy_invoke]
    rw [debounceInvoke_callCount, fireDue_callCount _ (fun tm s => rfl)]
  | cancel t =>
    simp only [stepEvent, countInvokes]
    rw [show (debouncePolicy (α := α) d im).cancel = debounceCancel from rfl]
    rw [debounceCancel_callCount, fireDue_callCount _ (fun tm s => rfl)]
    omega
  | flush t a =>
    simp only [stepEvent, countInvokes]
    rw [show (debouncePolicy (α := α) d im).flush = debounceFlush from rfl]
    rw [debounceFlush_callCount, fireDue_callCount _ (fun tm s => rfl)]
    omega

theorem runEvents_callCount_throttle (d : Nat) (l tr : Bool) :
    ∀ (evs : List (Event α)) (s : WrapState α),
      ((runEvents (throttlePolicy d l tr) evs s).1).callCount
        = s.callCount + countInvokes evs := by
  intro evs
  induction evs with
  | nil => intro s; simp [runEvents, countInvokes]
  | cons e evs ih =>
    intro s
    rw [runEvents_cons]
    simp only []
    rw [ih, stepEvent_callCount_throttle]
    cases e <;> simp [countInvokes] <;> omega

theorem runEvents_callCount_debounce (d : Nat) (im : Bool) :
    ∀ (evs : List (Event α)) (s : WrapState α),
      ((runEvents (debouncePolicy d im) evs s).1).callCount
        = s.callCount + countInvokes evs := by
  intro evs
  induction evs with
  | nil => intro s; simp [runEvents, countInvokes]
  | cons e evs ih =>
    intro s
    rw [runEvents_cons]
    simp only []
    rw [ih, stepEvent_callCount_debounce]
    cases e <;> simp [countInvokes] <;> omega


/-- The timer-ownership invariant (spec §3/§5), stated over the explicit
timer queue: (1) at most one timer of this wrapper is pending; (2) the
wrapper's `timeoutId` variable holds the id of every live timer — the handle
to a live timer is never lost, so no timer leaks; (3) every `setTimeout` is
accounted for by exactly one removal of a live timer (the ghost `cleared`
counter: a fire, or a `clearTimeout` that found its target) or by the one
still-pending timer — so no arm is cleared twice and none is forgotten. -/
def TimerInv (s : WrapState α) : Prop :=
  s.pending.length ≤ 1 ∧
  (∀ tm ∈ s.pending, s.timeoutVar = some tm.id) ∧
  s.arms = s.cleared + s.pending.length

theorem timerInv_shape {s : WrapState α} (h : TimerInv s) :
    s.pending = [] ∨ ∃ tm, s.pending = [tm] ∧ s.timeoutVar = some tm.id := by
  rcases h with ⟨hlen, hvar, _⟩
  rcases hp : s.pending with _ | ⟨tm, rest⟩
  · exact Or.inl rfl
  · rcases rest with _ | ⟨tm2, rest2⟩
    · exact Or.inr ⟨tm, rfl, hvar tm (by rw [hp]; simp)⟩
    · rw [hp] at hlen
      simp at hlen

theorem timerInv_acc {s : WrapState α} (h : TimerInv s) (hp : s.pending = []) :
    s.arms = s.cleared := by
  have hacc := h.2.2
  rw [hp] at hacc
  simpa using hacc

theorem clearLive_inv_state (id : Nat) {s : WrapState α} (h : TimerInv s)
    (hv : s.timeoutVar = some id) :
    (clearLive id s).pending = [] ∧ (clearLive id s).arms = (clearLive id s).cleared := by
  rcases timerInv_shape h with hp | ⟨tm, hp, hvtm⟩
  · constructor
    · simp [clearLive, hp]
    · have := timerInv_acc h hp
      simp [clearLive, hp, this]
  · have hid : tm.id = id := by
      rw [hv] at hvtm
      exact (Option.some_inj.mp hvtm).symm
    have hacc := h.2.2
    rw [hp] at hacc
    simp at hacc
    constructor
    · simp [clearLive, hp, hid]
    · simp [clearLive, hp, hid]
      omega

theorem armTimer_inv (ft : Nat) (a : α) (s : WrapState α)
    (hp : s.pending = []) (hacc : s.arms = s.cleared) :
    TimerInv (armTimer ft a s) := by
  refine ⟨by simp [armTimer, hp], ?_, by simp [armTimer, hp]; omega⟩
  intro tm htm
  simp [armTimer, hp] at htm
  subst htm
  rfl

theorem clearIfVar_inv {s : WrapState α} (h : TimerInv s) :
    TimerInv (clearIfVar s) := by
  unfold clearIfVar
  rcases hv : s.timeoutVar with _ | id
  · exact h
  · rcases clearLive_inv_state id h hv with ⟨hp, hacc⟩
    refine ⟨by simp [hp], by simp [hp], by simp [hp]; exact hacc⟩

theorem throttleInvoke_inv (d : Nat) (l tr : Bool) (t : Nat) (a : α)
    (s : WrapState α) (h : TimerInv s) :
    TimerInv ((throttleInvoke d l tr t a s).1) := by
  simp only [throttleInvoke]
  split_ifs with h1 h2 h3 h4 h5 h6
  · exact clearIfVar_inv h
  · rcases timerInv_shape h with hp | ⟨tm, hp, hvtm⟩
    · exact armTimer_inv _ _ _ hp (timerInv_acc (s := s) h hp)
    · have hnone : s.timeoutVar = none := h3.1
      rw [hvtm] at hnone
      exact absurd hnone (by simp)
  · exact h
  · exact clearIfVar_inv h
  · rcases timerInv_shape h with hp | ⟨tm, hp, hvtm⟩
    · exact armTimer_inv _ _ _ hp (timerInv_acc (s := s) h hp)
    · have hnone : s.timeoutVar = none := h5.1
      rw [hvtm] at hnone
      exact absurd hnone (by simp)
  · exact h

theorem debounceInvoke_inv (d : Nat) (im : Bool) (t : Nat) (a : α)
    (s : WrapState α) (h : TimerInv s) :
    TimerInv ((debounceInvoke d im t a s).1) := by
  simp only [debounceInvoke]
  rcases hv : s.timeoutVar with _ | id
  · simp only [hv]
    rcases timerInv_shape h with hp | ⟨tm, hp, hvtm⟩
    · exact armTimer_inv _ _ _ hp (timerInv_acc (s := s) h hp)
    · rw [hvtm] at hv
      exact absurd hv (by simp)
  · simp only [hv]
    rcases clearLive_inv_state id h hv with ⟨hp, hacc⟩
    exact armTimer_inv _ _ _ hp hacc

theorem throttleCancel_inv (s : WrapState α) (h : TimerInv s) :
    TimerInv (throttleCancel s) :=
  clearIfVar_inv h

theorem debounceCancel_inv (s : WrapState α) (h : TimerInv s) :
    TimerInv (debounceCancel s) := by
  simp only [debounceCancel]
  rcases hv : s.timeoutVar with _ | id
  · rcases timerInv_shape h with hp | ⟨tm, hp, hvtm⟩
    · refine ⟨by simp [hp], by simp [hp], by simpa [hp] using h.2.2⟩
    · rw [hvtm] at hv
      exact absurd hv (by simp)
  · rcases clearLive_inv_state id h hv with ⟨hp, hacc⟩
    refine ⟨by simp [hp], by simp [hp], by simpa [hp] using hacc⟩

theorem throttleFlush_inv (t : Nat) (a : α) (s : WrapState α) (h : TimerInv s) :
    TimerInv ((throttleFlush t a s).1) := by
  simp only [throttleFlush]
  rcases hv : s.timeoutVar with _ | id
  · exact h
  · rcases clearLive_inv_state id h hv with ⟨hp, hacc⟩
    refine ⟨by simp [hp], by simp [hp], by simpa [hp] using hacc⟩

theorem debounceFlush_inv (t : Nat) (a : α) (s : WrapState α) (h : TimerInv s) :
    TimerInv ((debounceFlush t a s).1) := by
  simp only [debounceFlush]
  rcases hv : s.timeoutVar with _ | id
  · exact h
  · rcases clearLive_inv_state id h hv with ⟨hp, hacc⟩
    refine ⟨by simp [hp], by simp [hp], by simpa [hp] using hacc⟩

theorem throttleTimerFire_inv (l : Bool) (tm : Timer α) (s : WrapState α)
    (h : TimerInv s) (hp : s.pending = [tm]) :
    TimerInv ((throttleTimerFire l tm s).1) := by
  have hacc := h.2.2
  rw [hp] at hacc
  simp at hacc
  refine ⟨by simp [throttleTimerFire, hp], by simp [throttleTimerFire, hp], ?_⟩
  simp [throttleTimerFire, hp]
  omega

theorem debounceTimerFire_inv (im : Bool) (tm : Timer α) (s : WrapState α)
    (h : TimerInv s) (hp : s.pending = [tm]) :
    TimerInv ((debounceTimerFire im tm s).1) := by
  have hacc := h.2.2
  rw [hp] at hacc
  simp at hacc
  refine ⟨by simp [debounceTimerFire, hp], by simp [debounceTimerFire, hp], ?_⟩
  simp [debounceTimerFire, hp]
  omega

theorem fireDue_inv
    (fire : Timer α → WrapState α → WrapState α × List (Nat × α))
    (hfire : ∀ tm s, TimerInv s → s.pending = [tm] → TimerInv ((fire tm s).1))
    (t : Nat) (s : WrapState α) (h : TimerInv s) :
    TimerInv ((fireDue fire t s).1) := by
  rcases timerInv_shape h with hp | ⟨tm, hp, hv⟩
  · rw [fireDue_of_pending_nil fire t s hp]
    exact h
  · by_cases hdue : tm.fireTime ≤ t
    · rw [fireDue_of_due fire t s tm hp hdue]
      exact hfire tm s h hp
    · rw [fireDue_of_not_due fire t s tm hp hdue]
      exact h

theorem fireAll_inv
    (fire : Timer α → WrapState α → WrapState α × List (Nat × α))
    (hfire : ∀ tm s, TimerInv s → s.pending = [tm] → TimerInv ((fire tm s).1))
    (s : WrapState α) (h : TimerInv s) :
    TimerInv ((fireAll fire s).1) := by
  rcases timerInv_shape h with hp | ⟨tm, hp, hv⟩
  · rw [fireAll_of_pending_nil fire s hp]
    exact h
  · rw [fireAll_of_pending_one fire s tm hp]
    exact hfire tm s h hp

theorem stepEvent_inv_throttle (d : Nat) (l tr : Bool) (e : Event α)
    (s : WrapState α) (h : TimerInv s) :
    TimerInv ((stepEvent (throttlePolicy d l tr) e s).1) := by
  have hmid := fireDue_inv (throttlePolicy (α := α) d l tr).fire
    (fun tm s hs hp => throttleTimerFire_inv l tm s hs hp) e.time s h
  cases e with
  | invoke t a => exact throttleInvoke_inv d l tr t a _ hmid
  | cancel t => exact throttleCancel_inv _ hmid
  | flush t a => exact throttleFlush_inv t a _ hmid

theorem stepEvent_inv_debounce (d : Nat) (im : Bool) (e : Event α)
    (s : WrapState α) (h : TimerInv s) :
    TimerInv ((stepEvent (debouncePolicy d im) e s).1) := by
  have hmid := fireDue_inv (debouncePolicy (α := α) d im).fire
    (fun tm s hs hp => debounceTimerFire_inv im tm s hs hp) e.time s h
  cases e with
  | invoke t a => exact debounceInvoke_inv d im t a _ hmid
  | cancel t => exact debounceCancel_inv _ hmid
  | flush t a => exact debounceFlush_inv t a _ hmid

theorem runEvents_inv_throttle (d : Nat) (l tr : Bool) :
    ∀ (evs : List (Event α)) (s : WrapState α), TimerInv s →
      TimerInv ((runEvents (throttlePolicy d l tr) evs s).1) := by
  intro evs
  induction evs with
  | nil => intro s h; exact h
  | cons e evs ih =>
    intro s h
    rw [runEvents_cons]
    exact ih _ (stepEvent_inv_throttle d l tr e s h)

theorem runEvents_inv_debounce (d : Nat) (im : Bool) :
    ∀ (evs : List (Event α)) (s : WrapState α), TimerInv s →
      TimerInv ((runEvents (debouncePolicy d im) evs s).1) := by
  intro evs
  induction evs with
  | nil => intro s h; exact h
  | cons e evs ih =>
    intro s h
    rw [runEvents_cons]
    exact ih _ (stepEvent_inv_debounce d im e s h)

theorem initState_inv : TimerInv (initState α) := by
  refine ⟨by simp [initState], by simp [initState], by simp [initState]⟩


theorem thInvoke_idle_window (delay : Nat) (l : Bool) (now : Nat) (a : α)
    (s : WrapState α)
    (hsent : ¬ (s.lastCall = 0 ∧ l = false))
    (h1 : 0 < remainingOf delay s.lastCall now)
    (h2 : remainingOf delay s.lastCall now ≤ (delay : Int)) :
    throttleInvoke delay l false now a s =
      ({ s with callCount := s.callCount + 1 }, []) := by
  obtain ⟨lc, tv, cc, pd, ni, ar, cl⟩ := s
  simp only [WrapState.lastCall] at hsent h1 h2
  have hcond : ¬ (remainingOf delay lc now ≤ 0 ∨
      remainingOf delay lc now > (delay : Int)) := by
    simp only [remainingOf] at h1 h2 ⊢
    omega
  simp [throttleInvoke, hsent, hcond]

theorem simpleThrottleRun_cons (delay : Nat) (t : Nat) (a : α)
    (cs : List (Nat × α)) (s : SimpleState) :
    simpleThrottleRun delay ((t, a) :: cs) s =
      ((simpleThrottleRun delay cs (simpleThrottleInvoke delay t a s).1).1,
       (simpleThrottleInvoke delay t a s).2 ++
         (simpleThrottleRun delay cs (simpleThrottleInvoke delay t a s).1).2) := rfl

theorem chain_le_head {α : Type} : ∀ (cs : List (Nat × α)) (t : Nat) (a : α),
    List.Chain (fun p q : Nat × α => p.1 ≤ q.1) (t, a) cs →
    ∀ c ∈ cs, t ≤ c.1 := by
  intro cs
  induction cs with
  | nil =>
    intro t a _ c hc
    cases hc
  | cons d ds ih =>
    intro t a hch c hc
    obtain ⟨t2, a2⟩ := d
    rcases List.chain_cons.mp hch with ⟨hle, hch2⟩
    rcases List.mem_cons.mp hc with hc | hc
    · subst hc
      exact hle
    · exact le_trans hle (ih t2 a2 hch2 c hc)

theorem simple_equiv_aux {α : Type} (delay : Nat) :
    ∀ (cs : List (Nat × α)) (sE : WrapState α) (sS : SimpleState),
      sE.pending = [] → sE.timeoutVar = none → sE.lastCall = sS.lastCall →
      (∀ c ∈ cs, sS.lastCall ≤ c.1) →
      List.Chain' (fun p q : Nat × α => p.1 ≤ q.1) cs →
      ((runEvents (throttlePolicy delay true false)
          (cs.map (fun c => Event.invoke c.1 c.2)) sE).1.pending = [] ∧
       (runEvents (throttlePolicy delay true false)
          (cs.map (fun c => Event.invoke c.1 c.2)) sE).2 =
         (simpleThrottleRun delay cs sS).2) := by
  intro cs
  induction cs with
  | nil =>
    intro sE sS hp hv hlc hlb hch
    exact ⟨hp, rfl⟩
  | cons c cs ih =>
    obtain ⟨t, a⟩ := c
    intro sE sS hp hv hlc hlb hch
    have hchain : List.Chain (fun p q : Nat × α => p.1 ≤ q.1) (t, a) cs := hch
    have hch2 : List.Chain' (fun p q : Nat × α => p.1 ≤ q.1) cs :=
      List.Chain'.tail hch
    have hlet : sS.lastCall ≤ t := hlb (t, a) (by simp)
    have hsent : ¬ (sE.lastCall = 0 ∧ true = false) := by simp
    rw [List.map_cons, runEvents_cons,
      stepEvent_invoke_of_pending_nil _ t a sE hp, simpleThrottleRun_cons]
    simp only [throttlePolicy_invoke]
    by_cases hfire : (delay : Int) ≤ (t : Int) - (sS.lastCall : Int)
    · rw [thInvoke_fire delay true false t a sE hv hsent
        (by unfold remainingOf; rw [hlc]; omega)]
      rw [show simpleThrottleInvoke delay t a sS = (⟨t⟩, [(t, a)]) from by
        simp [simpleThrottleInvoke, hfire]]
      have hrec := ih { sE with callCount := sE.callCount + 1, lastCall := t }
        ⟨t⟩ hp hv rfl (chain_le_head cs t a hchain) hch2
      exact ⟨hrec.1, by rw [hrec.2]⟩
    · rw [thInvoke_idle_window delay true t a sE hsent
        (by unfold remainingOf; rw [hlc]; omega)
        (by unfold remainingOf; rw [hlc]; omega)]
      rw [show simpleThrottleInvoke delay t a sS = (sS, []) from by
        simp [simpleThrottleInvoke]; omega]
      have hrec := ih { sE with callCount := sE.callCount + 1 }
        sS hp hv hlc (fun c hc => hlb c (by simp [hc])) hch2
      exact ⟨hrec.1, by rw [hrec.2]⟩

/-! ## Claims -/

/-- C1 counterexample: with `throttle(fn, 100)` under default options and
invoke calls at relative times 0, 30, 60, 90, 120 (modelled at clock epoch
1000, i.e. absolute times 1000..1120, with distinct arguments 10..14), the
underlying callable does **not** execute exactly 2 times once the event loop
runs to quiescence: the call at t = 120 arms a second trailing timer, giving
a third execution. -/
theorem throttle_default_scenario_not_two_fires :
    (runToQuiescence (throttlePolicy 100 true true)
        [Event.invoke 1000 (10 : Nat), Event.invoke 1030 11, Event.invoke 1060 12,
         Event.invoke 1090 13, Event.invoke 1120 14]).length ≠ 2 := by
  decide

/-- C1 (amended): for `throttle(fn, 100)` with default options and invoke
calls at relative times 0, 30, 60, 90, 120 from any clock epoch `t0 ≥ 100`,
the underlying callable executes exactly **3** times: a leading fire at t = 0
with t = 0's arguments, a trailing fire at t = 100 (not t≈120/130) replaying
the arguments captured at t = 30 (collapsing the 30/60/90 batch), and — since
the t = 120 call arms a further trailing timer — a third fire at t = 200
replaying t = 120's arguments. -/
theorem throttle_default_scenario_fires_three {α : Type} (t0 : Nat) (a0 a1 a2 a3 a4 : α) (h : 100 ≤ t0) :
    runToQuiescence (throttlePolicy 100 true true)
        [Event.invoke t0 a0, Event.invoke (t0 + 30) a1, Event.invoke (t0 + 60) a2,
         Event.invoke (t0 + 90) a3, Event.invoke (t0 + 120) a4] =
      [(t0, a0), (t0 + 100, a1), (t0 + 200, a4)] := by
  set P : Policy α := throttlePolicy 100 true true with hP
  have e1 : stepEvent P (Event.invoke t0 a0) (initState α) =
      (⟨t0, none, 1, [], 1, 0, 0⟩, [(t0, a0)]) := by
    rw [stepEvent_invoke_of_pending_nil P t0 a0 _ rfl]
    exact thInvoke_fire 100 true true t0 a0 (initState α) rfl (by simp [initState])
      (by unfold initState remainingOf; left; push_cast; omega)
  have e2 : stepEvent P (Event.invoke (t0 + 30) a1) ⟨t0, none, 1, [], 1, 0, 0⟩ =
      (⟨t0, some 1, 2, [⟨1, t0 + 100, a1⟩], 2, 1, 0⟩, []) := by
    rw [stepEvent_invoke_of_pending_nil P (t0 + 30) a1 _ rfl]
    have harm := thInvoke_arm 100 true (t0 + 30) a1 ⟨t0, none, 1, [], 1, 0, 0⟩ rfl
      (by simp) (by unfold remainingOf; push_cast; omega)
      (by unfold remainingOf; push_cast; omega)
    rw [show remainingOf 100 (WrapState.lastCall ⟨t0, none, 1, [], 1, 0, 0⟩) (t0 + 30) =
          (70 : Int) from by unfold remainingOf; push_cast; omega] at harm
    rw [show t0 + 30 + (70 : Int).toNat = t0 + 100 from by rw [show (70 : Int).toNat = 70 from rfl]] at harm
    exact harm
  have e3 : stepEvent P (Event.invoke (t0 + 60) a2)
        ⟨t0, some 1, 2, [⟨1, t0 + 100, a1⟩], 2, 1, 0⟩ =
      (⟨t0, some 1, 3, [⟨1, t0 + 100, a1⟩], 2, 1, 0⟩, []) := by
    rw [stepEvent_invoke_of_not_due P (t0 + 60) a2 _ ⟨1, t0 + 100, a1⟩ rfl (by show ¬ t0 + 100 ≤ t0 + 60; omega)]
    exact thInvoke_skip 100 true true (t0 + 60) a2 1 _ rfl (by simp)
      (by unfold remainingOf; push_cast; omega)
      (by unfold remainingOf; push_cast; omega)
  have e4 : stepEvent P (Event.invoke (t0 + 90) a3)
        ⟨t0, some 1, 3, [⟨1, t0 + 100, a1⟩], 2, 1, 0⟩ =
      (⟨t0, some 1, 4, [⟨1, t0 + 100, a1⟩], 2, 1, 0⟩, []) := by
    rw [stepEvent_invoke_of_not_due P (t0 + 90) a3 _ ⟨1, t0 + 100, a1⟩ rfl (by show ¬ t0 + 100 ≤ t0 + 90; omega)]
    exact thInvoke_skip 100 true true (t0 + 90) a3 1 _ rfl (by simp)
      (by unfold remainingOf; push_cast; omega)
      (by unfold remainingOf; push_cast; omega)
  have hf : P.fire ⟨1, t0 + 100, a1⟩ ⟨t0, some 1, 4, [⟨1, t0 + 100, a1⟩], 2, 1, 0⟩ =
      (⟨t0 + 100, none, 4, [], 2, 1, 1⟩, [(t0 + 100, a1)]) := by
    simp [hP, throttlePolicy, throttleTimerFire]
  have e5 : stepEvent P (Event.invoke (t0 + 120) a4)
        ⟨t0, some 1, 4, [⟨1, t0 + 100, a1⟩], 2, 1, 0⟩ =
      (⟨t0 + 100, some 2, 5, [⟨2, t0 + 200, a4⟩], 3, 2, 1⟩, [(t0 + 100, a1)]) := by
    rw [stepEvent_invoke_of_due P (t0 + 120) a4 _ ⟨1, t0 + 100, a1⟩ rfl (by show t0 + 100 ≤ t0 + 120; omega)]
    rw [hf]
    have harm := thInvoke_arm 100 true (t0 + 120) a4 ⟨t0 + 100, none, 4, [], 2, 1, 1⟩ rfl
      (by simp) (by unfold remainingOf; push_cast; omega)
      (by unfold remainingOf; push_cast; omega)
    rw [show remainingOf 100 (WrapState.lastCall ⟨t0 + 100, none, 4, [], 2, 1, 1⟩)
          (t0 + 120) = (80 : Int) from by unfold remainingOf; push_cast; omega] at harm
    rw [show t0 + 120 + (80 : Int).toNat = t0 + 200 from by rw [show (80 : Int).toNat = 80 from rfl]] at harm
    have harm2 : P.invoke (t0 + 120) a4 ⟨t0 + 100, none, 4, [], 2, 1, 1⟩ =
        (⟨t0 + 100, some 2, 5, [⟨2, t0 + 200, a4⟩], 3, 2, 1⟩, []) := by
      simpa [hP, throttlePolicy, armTimer] using harm
    rw [harm2]
    simp
  have hq : fireAll P.fire ⟨t0 + 100, some 2, 5, [⟨2, t0 + 200, a4⟩], 3, 2, 1⟩ =
      (⟨t0 + 200, none, 5, [], 3, 2, 2⟩, [(t0 + 200, a4)]) := by
    rw [fireAll_of_pending_one P.fire _ ⟨2, t0 + 200, a4⟩ rfl]
    simp [hP, throttlePolicy, throttleTimerFire]
  unfold runToQuiescence
  rw [runEvents_cons, e1, runEvents_cons, e2, runEvents_cons, e3,
    runEvents_cons, e4, runEvents_cons, e5]
  simp [runEvents, hq]

/-- Witness for the amended C1 at clock epoch 1000 with arguments 10..14. -/
theorem throttle_default_scenario_fires_three_witness :
    runToQuiescence (throttlePolicy 100 true true)
        [Event.invoke 1000 (10 : Nat), Event.invoke (1000 + 30) 11,
         Event.invoke (1000 + 60) 12, Event.invoke (1000 + 90) 13,
         Event.invoke (1000 + 120) 14] =
      [(1000, 10), (1000 + 100, 11), (1000 + 200, 14)] :=
  throttle_default_scenario_fires_three 1000 10 11 12 13 14 (by decide)

/-- C2: debounce with `immediate = false` collapses any burst: for every
sequence of N ≥ 1 invoke calls with non-decreasing timestamps all occurring
within a span shorter than `delay` (every call lands within `delay` of the
first), exactly one underlying execution occurs, at `delay` after the last
call, with the last call's arguments/context. -/
theorem debounce_trailing_burst_single_execution
    {α : Type} (delay t1 : Nat) (a1 : α) (rest : List (Nat × α))
    (hsorted : List.Chain (fun p q : Nat × α => p.1 ≤ q.1) (t1, a1) rest)
    (hspan : ∀ c ∈ rest, c.1 < t1 + delay) :
    runToQuiescence (debouncePolicy delay false)
        (((t1, a1) :: rest).map (fun c => Event.invoke c.1 c.2)) =
      [((rest.getLastD (t1, a1)).1 + delay, (rest.getLastD (t1, a1)).2)] := by
  rw [runToQuiescence_eq, List.map_cons, runEvents_cons,
    stepEvent_invoke_of_pending_nil _ t1 a1 _ rfl]
  simp only [debouncePolicy_invoke]
  rw [dbInvoke_of_idle delay false t1 a1 (initState α) rfl rfl]
  have haux := debounce_burst_aux delay false rest t1 (initState α).nextId a1
    ⟨t1, some (initState α).nextId, (initState α).callCount + 1,
      [⟨(initState α).nextId, t1 + delay, a1⟩], (initState α).nextId + 1,
      (initState α).arms + 1, (initState α).cleared⟩ rfl rfl
    (chain_le_and_span_to_gap delay rest t1 a1 hsorted hspan)
  rw [List.append_assoc, haux]
  simp

/-- C3: debounce with `immediate = true` fires exactly once per burst (calls
spaced closer than `delay`): the single execution is synchronous with the
first call and uses its arguments/context; the final rearmed timer's eventual
fire executes nothing (first conjunct, which runs the loop to quiescence);
and a call arriving while a timer id is stored performs no immediate
execution (second conjunct) — the immediate fire happens only when no timer
was pending before the call's `clearTimeout`. -/
theorem debounce_immediate_burst_single_execution
    {α : Type} (delay t1 : Nat) (a1 : α) (rest : List (Nat × α))
    (now : Nat) (a : α) (id : Nat) (s : WrapState α)
    (hburst : List.Chain (fun p q : Nat × α => p.1 ≤ q.1 ∧ q.1 < p.1 + delay)
      (t1, a1) rest)
    (hvs : s.timeoutVar = some id) :
    runToQuiescence (debouncePolicy delay true)
        (((t1, a1) :: rest).map (fun c => Event.invoke c.1 c.2)) = [(t1, a1)] ∧
    (debounceInvoke delay true now a s).2 = [] := by
  constructor
  · rw [runToQuiescence_eq, List.map_cons, runEvents_cons,
      stepEvent_invoke_of_pending_nil _ t1 a1 _ rfl]
    simp only [debouncePolicy_invoke]
    rw [dbInvoke_of_idle delay true t1 a1 (initState α) rfl rfl]
    have haux := debounce_burst_aux delay true rest t1 (initState α).nextId a1
      ⟨t1, some (initState α).nextId, (initState α).callCount + 1,
        [⟨(initState α).nextId, t1 + delay, a1⟩], (initState α).nextId + 1,
        (initState α).arms + 1, (initState α).cleared⟩ rfl rfl hburst
    rw [List.append_assoc, haux]
    simp
  · obtain ⟨lc, tv, cc, pd, ni, ar, cl⟩ := s
    simp only [WrapState.timeoutVar] at hvs
    subst hvs
    simp [debounceInvoke]

/-- Witness for C2: `debounce(fn, 300)` invoked at t = 0, 100, 200 with
arguments 1, 2, 3 executes exactly once, at t = 500, with argument 3. -/
theorem debounce_trailing_burst_single_execution_witness :
    runToQuiescence (debouncePolicy 300 false)
        (([(0, 1), (100, 2), (200, 3)] : List (Nat × Nat)).map
          (fun c => Event.invoke c.1 c.2)) = [(500, 3)] := by
  simpa using debounce_trailing_burst_single_execution 300 0 1 [(100, 2), (200, 3)]
    (by simp [List.chain_cons]) (by decide)

/-- Witness for C3: `debounce(fn, 1000, immediate = true)` invoked at t = 0
and t = 500 executes exactly once, at t = 0, with the first call's argument;
and an invoke against a wrapper holding timer id 1 fires nothing
immediately. -/
theorem debounce_immediate_burst_single_execution_witness :
    runToQuiescence (debouncePolicy 1000 true)
        (([(0, 1), (500, 2)] : List (Nat × Nat)).map
          (fun c => Event.invoke c.1 c.2)) = [(0, 1)] ∧
    (debounceInvoke 1000 true 700 (3 : Nat)
        ⟨500, some 1, 2, [⟨1, 1500, 2⟩], 2, 2, 1⟩).2 = [] := by
  simpa using debounce_immediate_burst_single_execution 1000 0 1 [(500, 2)]
    700 3 1 ⟨500, some 1, 2, [⟨1, 1500, 2⟩], 2, 2, 1⟩ (by simp [List.chain_cons]) rfl


/-- C9: for both policies and any interleaving of invoke/cancel/flush events
(timer firings happen inside the driver), the call counter after the run
equals exactly the number of `invoke` events — each `invoke` adds one whether
or not it executes, and `cancel`/`flush`/timer fires add nothing (first two
conjuncts); consequently the counter is monotonically non-decreasing as more
events are appended (last two conjuncts). -/
theorem callCount_counts_invokes {α : Type} (d : Nat) (l tr im : Bool) (evs more : List (Event α)) :
    ((runEvents (throttlePolicy d l tr) evs (initState α)).1).callCount
      = countInvokes evs ∧
    ((runEvents (debouncePolicy d im) evs (initState α)).1).callCount
      = countInvokes evs ∧
    ((runEvents (throttlePolicy d l tr) evs (initState α)).1).callCount ≤
      ((runEvents (throttlePolicy d l tr) (evs ++ more) (initState α)).1).callCount ∧
    ((runEvents (debouncePolicy d im) evs (initState α)).1).callCount ≤
      ((runEvents (debouncePolicy d im) (evs ++ more) (initState α)).1).callCount := by
  refine ⟨?_, ?_, ?_, ?_⟩ <;>
    simp [runEvents_callCount_throttle, runEvents_callCount_debounce,
      countInvokes_append, initState]

/-- C5 counterexample: an armed timer is not always cleared by one of fire,
cancel, or flush — a later `invoke` clears it too.  Under `debounce(fn, 300)`
with only two invoke events (t = 1000 then t = 1100, no cancel, no flush),
two timers were armed (`arms = 2`) and one live timer was removed from the
queue (`cleared = 1`) although nothing ever fired (no execution occurred) and
the one remaining pending timer is the second one: the first timer was
cleared by the second invoke's `clearTimeout`. -/
theorem debounce_invoke_clears_armed_timer :
    (runEvents (debouncePolicy 300 false)
        [Event.invoke 1000 (7 : Nat), Event.invoke 1100 8] (initState Nat)).1.arms = 2 ∧
    (runEvents (debouncePolicy 300 false)
        [Event.invoke 1000 (7 : Nat), Event.invoke 1100 8] (initState Nat)).1.cleared = 1 ∧
    (runEvents (debouncePolicy 300 false)
        [Event.invoke 1000 (7 : Nat), Event.invoke 1100 8] (initState Nat)).1.pending =
      [⟨2, 1400, 8⟩] ∧
    (runEvents (debouncePolicy 300 false)
        [Event.invoke 1000 (7 : Nat), Event.invoke 1100 8] (initState Nat)).2 = [] := by
  decide

/-- C5 (amended): for either policy and every sequence of invoke/cancel/flush
events (timer firings are performed by the driver, and the final two
conjuncts also run every leftover timer), the reached state satisfies the
timer-ownership invariant `TimerInv`: at most one pending timer exists at any
instant, the wrapper never loses the handle to a live timer (no leak), and
every arm is matched by exactly one removal of a live timer — by the fire
that consumes it, by `cancel`, by `flush`, or by a later invoke's
`clearTimeout` — or is the one still pending (no double clear). -/
theorem timer_ownership_invariant {α : Type} (d : Nat) (l tr im : Bool) (evs : List (Event α)) :
    TimerInv ((runEvents (throttlePolicy d l tr) evs (initState α)).1) ∧
    TimerInv ((runEvents (debouncePolicy d im) evs (initState α)).1) ∧
    TimerInv ((fireAll (throttlePolicy (α := α) d l tr).fire
      (runEvents (throttlePolicy d l tr) evs (initState α)).1).1) ∧
    TimerInv ((fireAll (debouncePolicy (α := α) d im).fire
      (runEvents (debouncePolicy d im) evs (initState α)).1).1) := by
  have h1 := runEvents_inv_throttle d l tr evs (initState α) initState_inv
  have h2 := runEvents_inv_debounce d im evs (initState α) initState_inv
  exact ⟨h1, h2,
    fireAll_inv _ (fun tm s hs hp => throttleTimerFire_inv l tm s hs hp) _ h1,
    fireAll_inv _ (fun tm s hs hp => debounceTimerFire_inv im tm s hs hp) _ h2⟩

/-- C10: for every positive delay and every sequence of invoke calls with
non-negative, non-decreasing timestamps (arguments/context abstracted by α),
`simpleThrottle(func, delay)` performs exactly the same executions — same
fires, same times, same arguments — as the enhanced
`throttle(func, delay, {leading: true, trailing: false})` run to quiescence:
both fire on a call precisely when at least `delay` has elapsed since the
last fire (the enhanced wrapper never arms a timer with `trailing = false`,
which the proof's invariant tracks). -/
theorem simpleThrottle_equiv_enhanced {α : Type} (delay : Nat) (cs : List (Nat × α))
    (hpos : 0 < delay)
    (hsorted : List.Chain' (fun p q : Nat × α => p.1 ≤ q.1) cs) :
    runToQuiescence (throttlePolicy delay true false)
        (cs.map (fun c => Event.invoke c.1 c.2)) =
      (simpleThrottleRun delay cs ⟨0⟩).2 := by
  have haux := simple_equiv_aux delay cs (initState α) ⟨0⟩ rfl rfl rfl
    (fun c hc => Nat.zero_le _) hsorted
  rw [runToQuiescence_eq, fireAll_of_pending_nil _ _ haux.1]
  simp [haux.2]

/-- Witness for C10 at delay 100 and calls at t = 1000, 1050, 1100: both
wrappers fire at 1000 (arg 1) and 1100 (arg 3), suppressing 1050. -/
theorem simpleThrottle_equiv_enhanced_witness :
    0 < 100 ∧
    runToQuiescence (throttlePolicy 100 true false)
        (([(1000, 1), (1050, 2), (1100, 3)] : List (Nat × Nat)).map
          (fun c => Event.invoke c.1 c.2)) =
      (simpleThrottleRun 100 [(1000, 1), (1050, 2), (1100, 3)] ⟨0⟩).2 :=
  ⟨by decide, simpleThrottle_equiv_enhanced 100 [(1000, 1), (1050, 2), (1100, 3)]
    (by decide) (by simp [List.chain'_cons])⟩


/-- C4: with `trailing = true`, an `invoke` landing inside the window while
no timer is pending arms a timer for the remaining time capturing *this*
call's arguments/context (first conjunct); an `invoke` landing inside the
window while a timer is pending changes nothing but the call counter — the
queue, the stored timer id, and hence the captured call are untouched, and no
execution happens (second conjunct); and when the armed timer fires it
replays exactly the arming call's captured arguments at the scheduled time
(third conjunct).  The hypotheses put `now` strictly inside the window
(`0 < remaining ≤ delay`) and rule out the `leading = false` first-call
sentinel adjustment. -/
theorem throttle_trailing_capture_and_suppress
    {α : Type} (delay : Nat) (leading trailing : Bool) (now now' : Nat)
    (a a' : α) (id : Nat) (s s' : WrapState α) (tm : Timer α)
    (hv : s.timeoutVar = none)
    (hsent : ¬ (s.lastCall = 0 ∧ leading = false))
    (h1 : 0 < remainingOf delay s.lastCall now)
    (h2 : remainingOf delay s.lastCall now ≤ (delay : Int))
    (hv' : s'.timeoutVar = some id)
    (hsent' : ¬ (s'.lastCall = 0 ∧ leading = false))
    (h1' : 0 < remainingOf delay s'.lastCall now')
    (h2' : remainingOf delay s'.lastCall now' ≤ (delay : Int)) :
    throttleInvoke delay leading true now a s =
      (armTimer (now + (remainingOf delay s.lastCall now).toNat) a
        { s with callCount := s.callCount + 1 }, []) ∧
    throttleInvoke delay leading trailing now' a' s' =
      ({ s' with callCount := s'.callCount + 1 }, []) ∧
    (throttleTimerFire leading tm s').2 = [(tm.fireTime, tm.args)] := by
  refine ⟨?_, ?_, rfl⟩
  · obtain ⟨lc, tv, cc, pd, ni, ar, cl⟩ := s
    simp only [WrapState.timeoutVar] at hv
    simp only [WrapState.lastCall] at hsent h1 h2
    subst hv
    have hcond : ¬ (remainingOf delay lc now ≤ 0 ∨
        remainingOf delay lc now > (delay : Int)) := by
      simp only [remainingOf] at h1 h2 ⊢
      omega
    simp [throttleInvoke, hsent, hcond]
  · obtain ⟨lc, tv, cc, pd, ni, ar, cl⟩ := s'
    simp only [WrapState.timeoutVar] at hv'
    simp only [WrapState.lastCall] at hsent' h1' h2'
    subst hv'
    have hcond : ¬ (remainingOf delay lc now' ≤ 0 ∨
        remainingOf delay lc now' > (delay : Int)) := by
      simp only [remainingOf] at h1' h2' ⊢
      omega
    simp [throttleInvoke, hsent', hcond]

/-- Witness for C4 at delay 100: an idle wrapper last fired at 1000 receives
a call at 1030 (remaining 70) and arms a timer for 1100 capturing it; an
armed wrapper receives a call at 1060 and is left untouched; the armed timer
replays its captured call at 1100. -/
theorem throttle_trailing_capture_and_suppress_witness :
    throttleInvoke 100 true true 1030 (7 : Nat)
        ⟨1000, none, 1, [], 1, 0, 0⟩ =
      (armTimer (1030 + (remainingOf 100 1000 1030).toNat) 7
        { (⟨1000, none, 1, [], 1, 0, 0⟩ : WrapState Nat) with callCount := 2 }, []) ∧
    throttleInvoke 100 true true 1060 (8 : Nat)
        ⟨1000, some 1, 2, [⟨1, 1100, 7⟩], 2, 1, 0⟩ =
      ({ (⟨1000, some 1, 2, [⟨1, 1100, 7⟩], 2, 1, 0⟩ : WrapState Nat) with
          callCount := 3 }, []) ∧
    (throttleTimerFire true (⟨1, 1100, 7⟩ : Timer Nat)
        ⟨1000, some 1, 2, [⟨1, 1100, 7⟩], 2, 1, 0⟩).2 = [(1100, 7)] :=
  throttle_trailing_capture_and_suppress 100 true true 1030 1060 7 8 1
    ⟨1000, none, 1, [], 1, 0, 0⟩ ⟨1000, some 1, 2, [⟨1, 1100, 7⟩], 2, 1, 0⟩
    ⟨1, 1100, 7⟩ rfl (by decide) (by decide) (by decide) rfl (by decide)
    (by decide) (by decide)

/-- C7: for both policies, `flush()` while a timer is pending clears that
timer (it leaves the queue, the stored id is nulled) and synchronously
performs exactly one execution at the flush call's time — and that execution
uses the arguments/context the flush call itself received (`fa`), which are
unrelated to whatever the armed timer captured. -/
theorem flush_fires_once_with_flush_args
    {α : Type} (now : Nat) (fa : α) (id : Nat) (s sd : WrapState α)
    (h : s.timeoutVar = some id) (hd : sd.timeoutVar = some id) :
    throttleFlush now fa s =
      ({ clearLive id s with lastCall := now, timeoutVar := none }, [(now, fa)]) ∧
    debounceFlush now fa sd =
      ({ clearLive id sd with timeoutVar := none }, [(now, fa)]) := by
  unfold throttleFlush debounceFlush
  rw [h, hd]
  exact ⟨rfl, rfl⟩

/-- Witness for C7: both wrappers hold an armed timer that captured the value
7, and `flush(99)` at time 1050 executes once, at 1050, with 99 — not 7. -/
theorem flush_fires_once_with_flush_args_witness :
    throttleFlush 1050 (99 : Nat) ⟨1000, some 1, 2, [⟨1, 1100, 7⟩], 2, 1, 0⟩ =
      ({ clearLive 1 (⟨1000, some 1, 2, [⟨1, 1100, 7⟩], 2, 1, 0⟩ : WrapState Nat) with
          lastCall := 1050, timeoutVar := none }, [(1050, 99)]) ∧
    debounceFlush 1050 (99 : Nat) ⟨1000, some 1, 1, [⟨1, 1300, 7⟩], 2, 1, 0⟩ =
      ({ clearLive 1 (⟨1000, some 1, 1, [⟨1, 1300, 7⟩], 2, 1, 0⟩ : WrapState Nat) with
          timeoutVar := none }, [(1050, 99)]) :=
  flush_fires_once_with_flush_args 1050 99 1
    ⟨1000, some 1, 2, [⟨1, 1100, 7⟩], 2, 1, 0⟩
    ⟨1000, some 1, 1, [⟨1, 1300, 7⟩], 2, 1, 0⟩ rfl rfl

/-- C8 counterexample: `throttle`'s `cancel()` with nothing pending is *not*
a no-op.  A throttle wrapper that fired at t = 1000 (no timer pending) has
`lastCall = 1000`; calling `cancel()` resets `lastCall` to the 0 sentinel,
and a subsequent call at t = 1020 — still inside the 100ms window — then
fires immediately, whereas without the `cancel()` it would not fire. -/
theorem throttle_cancel_idle_not_noop :
    (runEvents (throttlePolicy 100 true true) [Event.invoke 1000 (1 : Nat)]
        (initState Nat)).1.timeoutVar = none ∧
    throttleCancel (runEvents (throttlePolicy 100 true true)
        [Event.invoke 1000 (1 : Nat)] (initState Nat)).1 ≠
      (runEvents (throttlePolicy 100 true true) [Event.invoke 1000 (1 : Nat)]
        (initState Nat)).1 ∧
    (throttleInvoke 100 true true 1020 (2 : Nat)
        (throttleCancel (runEvents (throttlePolicy 100 true true)
          [Event.invoke 1000 (1 : Nat)] (initState Nat)).1)).2 ≠
      (throttleInvoke 100 true true 1020 (2 : Nat)
        (runEvents (throttlePolicy 100 true true) [Event.invoke 1000 (1 : Nat)]
          (initState Nat)).1).2 := by
  decide

/-- C8 (amended): neither `cancel()` nor `flush()` raises when nothing is
pending (both are total here, mirroring that `clearTimeout(null)` is a
specified no-op).  `flush()` with no stored timer id is a strict no-op for
both policies, and debounce's `cancel()` is a strict no-op; but throttle's
`cancel()` additionally resets `lastCall` to the 0 sentinel even when no
timer is pending, which changes the timing of subsequent calls. -/
theorem cancel_flush_idle_behavior
    {α : Type} (now : Nat) (a : α) (s : WrapState α) (h : s.timeoutVar = none) :
    throttleCancel s = { s with lastCall := 0 } ∧
    debounceCancel s = s ∧
    throttleFlush now a s = (s, []) ∧
    debounceFlush now a s = (s, []) := by
  obtain ⟨lc, tv, cc, pd, ni, ar, cl⟩ := s
  simp only [WrapState.timeoutVar] at h
  subst h
  refine ⟨rfl, rfl, rfl, rfl⟩

/-- Witness for the amended C8 on an idle wrapper that last fired at 1000. -/
theorem cancel_flush_idle_behavior_witness :
    throttleCancel (⟨1000, none, 1, [], 1, 0, 0⟩ : WrapState Nat) =
      { (⟨1000, none, 1, [], 1, 0, 0⟩ : WrapState Nat) with lastCall := 0 } ∧
    debounceCancel (⟨1000, none, 1, [], 1, 0, 0⟩ : WrapState Nat) =
      ⟨1000, none, 1, [], 1, 0, 0⟩ ∧
    throttleFlush 1050 (9 : Nat) ⟨1000, none, 1, [], 1, 0, 0⟩ =
      (⟨1000, none, 1, [], 1, 0, 0⟩, []) ∧
    debounceFlush 1050 (9 : Nat) ⟨1000, none, 1, [], 1, 0, 0⟩ =
      (⟨1000, none, 1, [], 1, 0, 0⟩, []) :=
  cancel_flush_idle_behavior 1050 9 ⟨1000, none, 1, [], 1, 0, 0⟩ rfl

/-- C6 counterexample: on debounce's deferred-fire path the pending-timer
slot is *not* cleared before the callable is invoked.  Concretely: after
`debounce(fn, 300)` is invoked once at t = 1000, a timer with id 1 is armed;
when it fires, at the moment `func.apply` runs the variable still holds id 1
(the `timeoutId = null` statement only follows the apply), so a throwing
callable leaves the wrapper with a stale truthy `timeoutId`. -/
theorem debounce_fire_slot_stale_counterexample :
    (debounceTimerFireApplyState (⟨1, 1300, 7⟩ : Timer Nat)
        (debounceInvoke 300 false 1000 7 (initState Nat)).1).timeoutVar ≠ none := by
  decide

/-- C6 (amended): the fire paths of **throttle** (immediate fire, deferred
timer fire, flush) all clear the timer slot before invoking the callable, as
does debounce's immediate fire (its guard requires the slot empty and
`clearTimeout` does not write the variable).  But debounce's deferred timer
fire and debounce's `flush` invoke the callable *before* nulling the slot:
at their apply points the variable still holds the old timer id, so a
throwing callable leaves a stale ARMED-looking state there. -/
theorem fire_paths_slot_state_at_apply
    {α : Type} (leading : Bool) (now : Nat) (tm : Timer α) (id : Nat)
    (s sA sB : WrapState α)
    (hA : sA.timeoutVar = none) (hB : sB.timeoutVar = some id) :
    (throttleInvokeApplyState leading now s).timeoutVar = none ∧
    (throttleTimerFireApplyState leading tm s).timeoutVar = none ∧
    (throttleFlushApplyState now id sB).timeoutVar = none ∧
    (debounceImmediateApplyState now sA).timeoutVar = none ∧
    (debounceTimerFireApplyState tm sB).timeoutVar = some id ∧
    (debounceFlushApplyState id sB).timeoutVar = some id := by
  refine ⟨clearIfVar_timeoutVar _, rfl, rfl, ?_, hB, hB⟩
  simp [debounceImmediateApplyState, hA]

/-- Witness for the amended C6 with concrete states: an idle wrapper for the
clean paths and a wrapper holding armed timer id 1 for the stale paths. -/
theorem fire_paths_slot_state_at_apply_witness :
    (throttleInvokeApplyState true 1000
        (initState Nat)).timeoutVar = none ∧
    (throttleTimerFireApplyState true (⟨1, 1100, 7⟩ : Timer Nat)
        (initState Nat)).timeoutVar = none ∧
    (throttleFlushApplyState 1000 1
        (⟨1000, some 1, 1, [⟨1, 1300, 7⟩], 2, 1, 0⟩ : WrapState Nat)).timeoutVar = none ∧
    (debounceImmediateApplyState 1000 (initState Nat)).timeoutVar = none ∧
    (debounceTimerFireApplyState (⟨1, 1300, 7⟩ : Timer Nat)
        (⟨1000, some 1, 1, [⟨1, 1300, 7⟩], 2, 1, 0⟩ : WrapState Nat)).timeoutVar = some 1 ∧
    (debounceFlushApplyState 1
        (⟨1000, some 1, 1, [⟨1, 1300, 7⟩], 2, 1, 0⟩ : WrapState Nat)).timeoutVar = some 1 :=
  fire_paths_slot_state_at_apply true 1000 ⟨1, 1300, 7⟩ 1 (initState Nat)
    (initState Nat) ⟨1000, some 1, 1, [⟨1, 1300, 7⟩], 2, 1, 0⟩ rfl rfl

end RateLimiter
